import Mathlib

/-!
Shallow embedding of `sunpy/coordinates/transformations.py`.

Machine floats are modelled by `ℝ` (so "within floating-point tolerance" in
round-trip properties becomes exact equality), astropy `Quantity` lengths by a
value/unit pair (`Qty`), observation instants (`obstime`) by `Option ℤ`
(instants are only compared for equality and fed to external oracles), and the
external oracles (`L0` Carrington offset, `get_body_barycentric` ephemeris) by
explicit function parameters.  Python exceptions are modelled by
`Except PyErr`.  Each raise site gets a distinct error value so that
reachability of a particular `raise` is expressible.
-/

noncomputable section

open Real (sqrt arcsin arccos)

/-- `np.deg2rad`. -/
def deg2rad (d : ℝ) : ℝ := d * (Real.pi / 180)

/-- `np.rad2deg`. -/
def rad2deg (r : ℝ) : ℝ := r * (180 / Real.pi)

/-- `np.arctan2 y x`: the angle of the point `(x, y)`, in `(-pi, pi]`.
This is exactly `Complex.arg` of the complex number `x + y*I`. -/
def arctan2 (y x : ℝ) : ℝ := Complex.arg ⟨x, y⟩

/-- `np.isclose`/`np.allclose` on scalars with the default tolerances
`rtol = 1e-5`, `atol = 1e-8`: `|a - b| <= atol + rtol * |b|`. -/
def isClose (a b : ℝ) : Prop := |a - b| ≤ 1e-8 + 1e-5 * |b|

/-- Length-like units occurring in the module: dimensionless (`u.one`),
meters (`u.m`) and kilometers (`u.km`). -/
inductive LUnit
  | one
  | m
  | km
deriving DecidableEq

/-- An astropy `Quantity`: a value together with its unit. -/
structure Qty where
  val : ℝ
  unit : LUnit
deriving DecidableEq

/-- Error messages: one tag per `raise` site of the module. -/
inductive ErrTag
  | obstimeRequired      -- `_carrington_offset` with a null instant
  | observersCompare     -- `_observers_are_equal` on a non-frame observer
  | hgsHgcObstime        -- `hgs_to_hgc` obstime mismatch
  | hgcHgsObstime        -- `hgc_to_hgs` obstime mismatch
  | hpcHccObserver       -- `hpc_to_hcc` non-frame observer `ConvertError`
  | hccHgsObserver       -- `hcc_to_hgs` non-frame observer `ConvertError`
  | hgsHccObserver       -- `hgs_to_hcc` non-frame observer `ConvertError`
  | hpcHpcFrameObs       -- `hpc_to_hpc` non-frame destination observer `ConvertError`
  | hpcHpcCoordObs       -- `hpc_to_hpc` non-frame source observer `ConvertError`
  | hcrsObstime          -- `hcrs_to_hgs` with a null destination instant
  | ephemerisTime        -- ephemeris lookup invoked on a null instant
deriving DecidableEq

/-- Python exception kinds raised by the module. -/
inductive PyErr
  | valueErr (tag : ErrTag)    -- `ValueError`
  | convertErr (tag : ErrTag)  -- `astropy.coordinates.ConvertError`
  | attrErr                    -- `AttributeError` (attribute access on a label observer)
  | unitErr                    -- astropy `UnitConversionError`
deriving DecidableEq

/-- `Quantity.to(u.m)`: dimensionless quantities cannot be converted to a
length. -/
def Qty.toM : Qty → Except PyErr ℝ
  | ⟨v, .m⟩ => .ok v
  | ⟨v, .km⟩ => .ok (v * 1000)
  | ⟨_, .one⟩ => .error .unitErr

/-- `Quantity.to(u.km)`. -/
def Qty.toKm : Qty → Except PyErr Qty
  | ⟨v, .m⟩ => .ok ⟨v / 1000, .km⟩
  | ⟨v, .km⟩ => .ok ⟨v, .km⟩
  | ⟨_, .one⟩ => .error .unitErr

/-- Multiplying a `Quantity` by a dimensionless scalar keeps its unit. -/
def Qty.scale (q : Qty) (c : ℝ) : Qty := ⟨q.val * c, q.unit⟩

/-- Modelled from the spec: the solar-constants source supplies the solar
radius as a length in meters (`constants.get('radius')`; the source of the
constant is outside this module).  The exact numeric value is immaterial to
every claim. -/
def rsunValue : ℝ := 6.957e8

/-- `RSUN_METERS`, as a quantity in meters. -/
def RSUN_METERS : Qty := ⟨rsunValue, .m⟩

/-- An observer: either a geometric vantage point (an astropy
`BaseCoordinateFrame` carrying latitude and longitude in degrees and a radial
distance from Sun center in meters), or an opaque string label such as
`"earth"`. -/
inductive Observer
  | label (s : String)
  | frame (lat lon radius : ℝ)

/-- Python `==` on two observer attributes: strings compare by contents;
distinct frame objects (and a frame against a string) compare unequal.  (Old
astropy frames do not define structural `__eq__`, so `==` on frames is
object identity; the numeric `allclose` comparison that always follows it
subsumes the identical-object case, see `isClose_refl`.) -/
def observerPyEq : Observer → Observer → Bool
  | .label a, .label b => a == b
  | _, _ => false

/-- `isinstance(obs, BaseCoordinateFrame)`. -/
def Observer.isFrame : Observer → Bool
  | .label _ => false
  | .frame _ _ _ => true

/-- Attribute access `obs.lat`: an `AttributeError` on a label. -/
def Observer.latA : Observer → Except PyErr ℝ
  | .label _ => .error .attrErr
  | .frame la _ _ => .ok la

/-- Attribute access `obs.lon`. -/
def Observer.lonA : Observer → Except PyErr ℝ
  | .label _ => .error .attrErr
  | .frame _ lo _ => .ok lo

/-- Attribute access `obs.radius`. -/
def Observer.radiusA : Observer → Except PyErr ℝ
  | .label _ => .error .attrErr
  | .frame _ _ r => .ok r

open Classical in
/-- `_observers_are_equal(obs_1, obs_2, string_ok)`: with `string_ok`, equal
labels compare equal; otherwise both observers must be frames (else
`ValueError`) and are compared component-wise with `u.allclose`. -/
def observersAreEqual (o₁ o₂ : Observer) (stringOk : Bool) : Except PyErr Bool :=
  if stringOk && observerPyEq o₁ o₂ then .ok true
  else
    match o₁, o₂ with
    | .frame la₁ lo₁ r₁, .frame la₂ lo₂ r₂ =>
        if isClose la₁ la₂ ∧ isClose lo₁ lo₂ ∧ isClose r₁ r₂ then .ok true else .ok false
    | _, _ => .error (.valueErr .observersCompare)

/-- A full spherical point: longitude and latitude in degrees, plus a
distance quantity. -/
structure SphRep where
  lon : ℝ
  lat : ℝ
  dist : Qty

/-- A Cartesian point, each component a quantity. -/
structure CartRep where
  x : Qty
  y : Qty
  z : Qty

/-- The data of a Helioprojective point: full spherical, or directional-only
(distance-free) spherical. -/
inductive HPCData
  | sph (s : SphRep)
  | unitSph (lon lat : ℝ)

/-- A Heliographic Stonyhurst point.  `observer` models the dynamic
attribute set by `hpc_to_hpc` (`hgs.observer = ...`); HGS itself carries no
observer parameter. -/
structure HGSCoord where
  obstime : Option ℤ
  observer : Option Observer
  srep : SphRep

/-- A Heliographic Stonyhurst destination frame. -/
structure HGSFrame where
  obstime : Option ℤ
  observer : Option Observer

/-- A Heliographic Carrington point. -/
structure HGCCoord where
  obstime : Option ℤ
  srep : SphRep

/-- A Heliographic Carrington destination frame. -/
structure HGCFrame where
  obstime : Option ℤ

/-- A Heliocentric point (Cartesian data; `obstime` is never read by the
transforms in this module and is omitted). -/
structure HCCCoord where
  observer : Observer
  data : CartRep

/-- A Heliocentric destination frame. -/
structure HCCFrame where
  observer : Observer

/-- A Helioprojective point. -/
structure HPCCoord where
  observer : Observer
  data : HPCData

/-- A Helioprojective destination frame. -/
structure HPCFrame where
  observer : Observer

/-- `_carrington_offset(obstime)`: `ValueError` on a null instant, else the
`L0` solar-ephemeris oracle (external to the module), in degrees. -/
def carringtonOffset (L0 : ℤ → ℝ) : Option ℤ → Except PyErr ℝ
  | none => .error (.valueErr .obstimeRequired)
  | some t => .ok (L0 t)

/-- `hgs_to_hgc`: Heliographic Stonyhurst to Heliographic Carrington. -/
def hgs_to_hgc (L0 : ℤ → ℝ) (c : HGSCoord) (f : HGCFrame) : Except PyErr HGCCoord :=
  if f.obstime = none ∨ f.obstime ≠ c.obstime then
    .error (.valueErr .hgsHgcObstime)
  else do
    let off ← carringtonOffset L0 c.obstime
    .ok ⟨c.obstime, ⟨c.srep.lon + off, c.srep.lat, c.srep.dist⟩⟩

/-- `hgc_to_hgs`: Heliographic Carrington to Heliographic Stonyhurst.  The
offset is evaluated at the destination frame's instant. -/
def hgc_to_hgs (L0 : ℤ → ℝ) (c : HGCCoord) (f : HGSFrame) : Except PyErr HGSCoord :=
  if f.obstime = none ∨ f.obstime ≠ c.obstime then
    .error (.valueErr .hgcHgsObstime)
  else do
    let off ← carringtonOffset L0 f.obstime
    .ok ⟨f.obstime, f.observer, ⟨c.srep.lon - off, c.srep.lat, c.srep.dist⟩⟩

/-- `hcc_to_hgs`: Heliocentric Cartesian to Heliographic Stonyhurst.  The
`ConvertError` guard inspects the SOURCE coordinate's observer
(`helioccoord.observer`); the destination frame's attributes are never read
except to realize the output. -/
def hcc_to_hgs (c : HCCCoord) (f : HGSFrame) : Except PyErr HGSCoord :=
  match c.observer with
  | .label _ => .error (.convertErr .hccHgsObserver)
  | .frame b0 l0 _ => do
    let xm ← c.data.x.toM
    let ym ← c.data.y.toM
    let zm ← c.data.z.toM
    let cb := Real.cos (deg2rad b0)
    let sb := Real.sin (deg2rad b0)
    let hecr := sqrt (xm ^ 2 + ym ^ 2 + zm ^ 2)
    let hgln := arctan2 xm (zm * cb - ym * sb) + deg2rad l0
    let hglt := arcsin ((ym * cb + zm * sb) / hecr)
    .ok ⟨f.obstime, f.observer, ⟨rad2deg hgln, rad2deg hglt, ⟨hecr / 1000, .km⟩⟩⟩

open Classical in
/-- `hgs_to_hcc`: Heliographic Stonyhurst to Heliocentric Cartesian.  A
dimensionless distance close to 1 is replaced by one solar radius before
anything else; the `ConvertError` guard inspects the destination frame's
observer. -/
def hgs_to_hcc (c : HGSCoord) (f : HCCFrame) : Except PyErr HCCCoord :=
  let r₀ := c.srep.dist
  let r := if r₀.unit = .one ∧ isClose r₀.val 1 then RSUN_METERS else r₀
  match f.observer with
  | .label _ => .error (.convertErr .hgsHccObserver)
  | .frame b0 l0deg _ => do
    let l0 := deg2rad l0deg
    let lon := deg2rad c.srep.lon - l0
    let lat := deg2rad c.srep.lat
    let cb := Real.cos (deg2rad b0)
    let sb := Real.sin (deg2rad b0)
    let x := r.scale (Real.cos lat * Real.sin lon)
    let y := r.scale (Real.sin lat * cb - Real.cos lat * Real.cos lon * sb)
    let z := r.scale (Real.sin lat * sb + Real.cos lat * Real.cos lon * cb)
    let xk ← x.toKm
    let yk ← y.toKm
    let zk ← z.toKm
    .ok ⟨f.observer, ⟨xk, yk, zk⟩⟩

/-- `hcc_to_hcc`: Heliocentric to Heliocentric.  Equal observers (labels
permitted) give the identity; otherwise route through Stonyhurst with the
observer rebound (`hgscoord.observer = hccframe.observer`; the destination
observer drives `hgs_to_hcc`). -/
def hcc_to_hcc (c : HCCCoord) (f : HCCFrame) : Except PyErr HCCCoord := do
  let eq ← observersAreEqual c.observer f.observer true
  if eq then
    .ok ⟨f.observer, c.data⟩
  else do
    let hgs ← hcc_to_hgs c ⟨none, none⟩
    let hgs' := { hgs with observer := some f.observer }
    hgs_to_hcc hgs' f

/-- `hcc_to_hpc`: Heliocentric Cartesian to Helioprojective.  If the
observers differ, the point is first re-expressed in a Heliocentric frame
with the destination observer (a graph dispatch that lands in
`hcc_to_hcc`). -/
def hcc_to_hpc (c : HCCCoord) (f : HPCFrame) : Except PyErr HPCCoord := do
  let eq ← observersAreEqual c.observer f.observer false
  let c₂ ← if eq then pure c else hcc_to_hcc c ⟨f.observer⟩
  let xm ← c₂.data.x.toM
  let ym ← c₂.data.y.toM
  let zm ← c₂.data.z.toM
  let D ← c₂.observer.radiusA
  let dist := sqrt (xm ^ 2 + ym ^ 2 + (D - zm) ^ 2)
  .ok ⟨f.observer, .sph ⟨rad2deg (arctan2 xm (D - zm)), rad2deg (arcsin (ym / dist)),
        ⟨dist / 1000, .km⟩⟩⟩

/-- Modelled from the spec: `Helioprojective.calculate_distance` (defined in
`frames.py`, which is not part of this module) resolves a distance-free
point by assuming it lies on the solar surface, taking the distance
coordinate to be one solar radius; a point that already has a distance is
returned unchanged. -/
def calculateDistance : HPCData → SphRep
  | .sph s => s
  | .unitSph lon lat => ⟨lon, lat, RSUN_METERS⟩

/-- The body of `hpc_to_hcc` past the observers-are-equal guard: the
non-frame-observer `ConvertError`, distance resolution, and the Cartesian
formula (using the source coordinate's observer radius). -/
def hpcToHccSame (c : HPCCoord) : Except PyErr CartRep :=
  match c.observer with
  | .label _ => .error (.convertErr .hpcHccObserver)
  | .frame _ _ D => do
    let s := calculateDistance c.data
    let x := deg2rad s.lon
    let y := deg2rad s.lat
    let dm ← s.dist.toM
    let rx := dm * Real.cos y * Real.sin x
    let ry := dm * Real.sin y
    let rz := D - dm * Real.cos y * Real.cos x
    .ok ⟨⟨rx / 1000, .km⟩, ⟨ry / 1000, .km⟩, ⟨rz / 1000, .km⟩⟩

/-- `hpc_to_hcc`: Helioprojective to Heliocentric.  If the observers differ,
the source recursively transforms to a Heliocentric frame sharing its own
observer — that recursive graph call takes the equal-observer branch
(`observersAreEqual` is reflexive on geometric observers, and the unequal
branch is reached only with two geometric observers), so it is inlined here
as `hpcToHccSame` — and then `hcc_to_hcc` carries it to the destination
observer. -/
def hpc_to_hcc (c : HPCCoord) (f : HCCFrame) : Except PyErr HCCCoord := do
  let eq ← observersAreEqual c.observer f.observer false
  if eq then do
    let cart ← hpcToHccSame c
    .ok ⟨f.observer, cart⟩
  else do
    let cart ← hpcToHccSame c
    hcc_to_hcc ⟨c.observer, cart⟩ f

/-- The tail of `hpc_to_hpc` past the first (equal-observers) condition:
the two non-frame-observer `ConvertError` guards, then the composite route
through Stonyhurst (graph dispatch modelled from the spec, section 4.6:
source to Stonyhurst, rebind the observer, Stonyhurst to destination). -/
def hpcToHpcRest (c : HPCCoord) (f : HPCFrame) : Except PyErr HPCCoord :=
  match f.observer with
  | .label _ => .error (.convertErr .hpcHpcFrameObs)
  | .frame _ _ _ =>
    match c.observer with
    | .label _ => .error (.convertErr .hpcHpcCoordObs)
    | .frame _ _ _ => do
      let hcc₁ ← hpc_to_hcc c ⟨c.observer⟩
      let hgs₁ ← hcc_to_hgs hcc₁ ⟨none, none⟩
      let hgs₂ := { hgs₁ with observer := some f.observer }
      let hcc₂ ← hgs_to_hcc hgs₂ ⟨f.observer⟩
      hcc_to_hpc hcc₂ f

open Classical in
/-- `hpc_to_hpc`: Helioprojective to Helioprojective.  The first condition is
`coord.observer == frame.observer or (allclose(lat) and allclose(lon) and
allclose(radius))` with Python's short-circuit evaluation: the `allclose`
calls access `.lat`/`.lon`/`.radius`, which raises `AttributeError` on a
label observer before the `ConvertError` guards in `hpcToHpcRest` can
run. -/
def hpc_to_hpc (c : HPCCoord) (f : HPCFrame) : Except PyErr HPCCoord := do
  if observerPyEq c.observer f.observer then
    .ok ⟨f.observer, c.data⟩
  else do
    let la₁ ← c.observer.latA
    let la₂ ← f.observer.latA
    if isClose la₁ la₂ then do
      let lo₁ ← c.observer.lonA
      let lo₂ ← f.observer.lonA
      if isClose lo₁ lo₂ then do
        let r₁ ← c.observer.radiusA
        let r₂ ← f.observer.radiusA
        if isClose r₁ r₂ then
          .ok ⟨f.observer, c.data⟩
        else hpcToHpcRest c f
      else hpcToHpcRest c f
    else hpcToHpcRest c f

/-! ### The affine HCRS ⟷ HGS transforms -/

/-- 3-vectors. -/
abbrev Vec3 := Fin 3 → ℝ

/-- 3×3 real matrices. -/
abbrev Mat3 := Matrix (Fin 3) (Fin 3) ℝ

/-- Build a 3-vector. -/
def v3 (a b c : ℝ) : Vec3 := ![a, b, c]

/-- Dot product. -/
def dot3 (u v : Vec3) : ℝ := u 0 * v 0 + u 1 * v 1 + u 2 * v 2

/-- Cross product. -/
def cross3 (u v : Vec3) : Vec3 :=
  v3 (u 1 * v 2 - u 2 * v 1) (u 2 * v 0 - u 0 * v 2) (u 0 * v 1 - u 1 * v 0)

/-- Euclidean norm. -/
def norm3 (v : Vec3) : ℝ := sqrt (dot3 v v)

/-- Normalization (as in astropy's `rotation_matrix`, which normalizes the
axis it is given). -/
def normalize3 (v : Vec3) : Vec3 := fun i => v i / norm3 v

/-- The cross-product matrix of `n`: `crossMat n *ᵥ v = cross3 n v`. -/
def crossMat (n : Vec3) : Mat3 :=
  Matrix.of ![![0, -n 2, n 1], ![n 2, 0, -n 0], ![-n 1, n 0, 0]]

/-- astropy `rotation_matrix(angle, axis)`: the Rodrigues matrix about the
normalized axis, in astropy's frame-rotation (passive) sign convention. -/
def rotationMatrix3 (θ : ℝ) (axis : Vec3) : Mat3 :=
  let n := normalize3 axis
  Real.cos θ • (1 : Mat3) - Real.sin θ • crossMat n +
    (1 - Real.cos θ) • Matrix.vecMulVec n n

/-- `_make_rotation_matrix_from_reprs(start, end)`: rotation axis is the
cross product, the angle the negated arccos of the normalized dot
product. -/
def mkRotFromReprs (A B : Vec3) : Mat3 :=
  rotationMatrix3 (-arccos (dot3 A B / (norm3 A * norm3 B))) (cross3 A B)

/-- `_SOLAR_NORTH_POLE_HCRS`: the unit direction at longitude 286.13 deg,
latitude 63.87 deg. -/
def solarNorthPole : Vec3 :=
  v3 (Real.cos (deg2rad 63.87) * Real.cos (deg2rad 286.13))
     (Real.cos (deg2rad 63.87) * Real.sin (deg2rad 286.13))
     (Real.sin (deg2rad 63.87))

/-- `_SUN_DETILT_MATRIX`: rotates the solar north pole onto the Z axis. -/
def sunDetiltMatrix : Mat3 := mkRotFromReprs solarNorthPole (v3 0 0 1)

/-- Ephemeris bodies looked up by the module. -/
inductive Body
  | sun
  | earth

/-- The de-tilted Sun-Earth vector with its Z component zeroed: the HGS X
axis, for the ephemeris oracle `gb` at instant `t`. -/
def hgsXaxisDetilt (gb : Body → ℤ → Vec3) (t : ℤ) : Vec3 :=
  let se : Vec3 := gb .earth t - gb .sun t
  let d := sunDetiltMatrix.mulVec se
  v3 (d 0) (d 1) 0

/-- `total_matrix` of `hcrs_to_hgs` at one instant: the X-axis-aligning
rotation times the de-tilt matrix. -/
def totalMatrixAt (gb : Body → ℤ → Vec3) (t : ℤ) : Mat3 :=
  mkRotFromReprs (hgsXaxisDetilt gb t) (v3 1 0 0) * sunDetiltMatrix

/-- The array-instant branch of `hcrs_to_hgs` (lines stacking one rotation
matrix per element of the obstime array). -/
def totalMatrixList (gb : Body → ℤ → Vec3) (ts : List ℤ) : List Mat3 :=
  ts.map (totalMatrixAt gb)

/-- `hcrs_to_hgs` for scalar instants: returns the rotation matrix (computed
at the destination HGS instant) and the origin-shift offset (nonzero only
when the source HCRS instant differs).  An ephemeris lookup at a null source
instant fails. -/
def hcrs_to_hgs (gb : Body → ℤ → Vec3) (hcrsT hgsT : Option ℤ) :
    Except PyErr (Mat3 × Vec3) :=
  match hgsT with
  | none => .error (.valueErr .hcrsObstime)
  | some t =>
    let M := totalMatrixAt gb t
    if hcrsT ≠ some t then
      match hcrsT with
      | none => .error (.valueErr .ephemerisTime)
      | some t₀ => .ok (M, M.mulVec (gb .sun t - gb .sun t₀))
    else .ok (M, 0)

/-- `hgs_to_hcrs`: invokes the forward computation with its arguments
swapped and returns the transposed matrix and the negated offset rotated by
it, instead of recomputing the ephemeris lookups. -/
def hgs_to_hcrs (gb : Body → ℤ → Vec3) (hgsT hcrsT : Option ℤ) :
    Except PyErr (Mat3 × Vec3) := do
  let p ← hcrs_to_hgs gb hcrsT hgsT
  .ok (p.1.transpose, p.1.transpose.mulVec (-p.2))

/-- The registry's application of an affine transform:
`dest = M · src + offset` (spec, section 6). -/
def applyAffine (p : Mat3 × Vec3) (v : Vec3) : Vec3 := p.1.mulVec v + p.2

/-- Spherical-to-Cartesian for realizing an HGS point into the affine HCRS
hop, in meters (astropy representation algebra, assumed correct and external
to the module). -/
def sphToCartM (s : SphRep) : Except PyErr Vec3 := do
  let dm ← s.dist.toM
  .ok (v3 (dm * Real.cos (deg2rad s.lat) * Real.cos (deg2rad s.lon))
          (dm * Real.cos (deg2rad s.lat) * Real.sin (deg2rad s.lon))
          (dm * Real.sin (deg2rad s.lat)))

/-- Cartesian-to-spherical (astropy representation algebra, external). -/
def cartMToSph (v : Vec3) : SphRep :=
  ⟨rad2deg (arctan2 (v 1) (v 0)), rad2deg (arcsin (v 2 / norm3 v)), ⟨norm3 v, .m⟩⟩

/-- `hgs_to_hgs`: identical instants give the identity; otherwise route
through HCRS (the composite hop is modelled from the spec, section 4.8,
taking the intermediate HCRS instant to be the source instant). -/
def hgs_to_hgs (gb : Body → ℤ → Vec3) (c : HGSCoord) (f : HGSFrame) :
    Except PyErr HGSCoord :=
  if c.obstime = f.obstime then
    .ok ⟨f.obstime, f.observer, c.srep⟩
  else do
    let v ← sphToCartM c.srep
    let fwd ← hgs_to_hcrs gb c.obstime c.obstime
    let bwd ← hcrs_to_hgs gb c.obstime f.obstime
    .ok ⟨f.obstime, f.observer, cartMToSph (applyAffine bwd (applyAffine fwd v))⟩

/-- `hgc_to_hgc`: identical instants give the identity; otherwise route
through two Stonyhurst frames at the two instants. -/
def hgc_to_hgc (gb : Body → ℤ → Vec3) (L0 : ℤ → ℝ) (c : HGCCoord) (f : HGCFrame) :
    Except PyErr HGCCoord :=
  if c.obstime = f.obstime then
    .ok ⟨f.obstime, c.srep⟩
  else do
    let h₁ ← hgc_to_hgs L0 c ⟨c.obstime, none⟩
    let h₂ ← hgs_to_hgs gb h₁ ⟨f.obstime, none⟩
    hgs_to_hgc L0 h₂ f

/-- Ephemeris oracle used by concrete witnesses: the Sun at the origin and
the Earth placed so that the de-tilted Sun-Earth vector is the Y axis. -/
def gbW : Body → ℤ → Vec3
  | .sun, _ => 0
  | .earth, _ => sunDetiltMatrix.transpose.mulVec (v3 0 1 0)


/-! ### General helper lemmas -/

theorem okBind {α β : Type} (a : α) (f : α → Except PyErr β) :
    (Except.ok a >>= f) = f a := rfl

theorem errBind {α β : Type} (e : PyErr) (f : α → Except PyErr β) :
    ((Except.error e : Except PyErr α) >>= f) = Except.error e := rfl

theorem pureOk {α : Type} (a : α) : (pure a : Except PyErr α) = Except.ok a := rfl

theorem isClose_refl (a : ℝ) : isClose a a := by
  simp only [isClose, sub_self, abs_zero]
  positivity

theorem observersAreEqual_frames {la₁ lo₁ r₁ la₂ lo₂ r₂ : ℝ} (sOk : Bool)
    (h : isClose la₁ la₂ ∧ isClose lo₁ lo₂ ∧ isClose r₁ r₂) :
    observersAreEqual (.frame la₁ lo₁ r₁) (.frame la₂ lo₂ r₂) sOk = .ok true := by
  unfold observersAreEqual
  simp only [observerPyEq, Bool.and_false, Bool.false_eq_true, if_false]
  rw [if_pos h]

theorem observersAreEqual_refl (la lo r : ℝ) (sOk : Bool) :
    observersAreEqual (.frame la lo r) (.frame la lo r) sOk = .ok true :=
  observersAreEqual_frames sOk ⟨isClose_refl _, isClose_refl _, isClose_refl _⟩

theorem observersAreEqual_not_frames {o₁ o₂ : Observer}
    (h : o₁.isFrame = false ∨ o₂.isFrame = false) :
    observersAreEqual o₁ o₂ false = .error (.valueErr .observersCompare) := by
  cases o₁ <;> cases o₂ <;>
    simp_all [observersAreEqual, observerPyEq, Observer.isFrame]

theorem observersAreEqual_err_shape {o₁ o₂ : Observer} {sOk : Bool} {e : PyErr}
    (h : observersAreEqual o₁ o₂ sOk = .error e) :
    e = .valueErr .observersCompare := by
  unfold observersAreEqual at h
  split at h
  · exact absurd h (by simp)
  · cases o₁ <;> cases o₂ <;> simp_all <;> (split at h <;> simp_all)

theorem observersAreEqual_ok_shape {o₁ o₂ : Observer} {b : Bool}
    (h : observersAreEqual o₁ o₂ false = .ok b) :
    (∃ la lo r, o₁ = .frame la lo r) ∧ ∃ la lo r, o₂ = .frame la lo r := by
  cases o₁ <;> cases o₂ <;> simp_all [observersAreEqual, observerPyEq]

theorem toM_err_shape {q : Qty} {e : PyErr} (h : q.toM = .error e) : e = .unitErr := by
  obtain ⟨v, u⟩ := q
  cases u <;> simp_all [Qty.toM]

theorem toKm_err_shape {q : Qty} {e : PyErr} (h : q.toKm = .error e) : e = .unitErr := by
  obtain ⟨v, u⟩ := q
  cases u <;> simp_all [Qty.toKm]

theorem bind_err_shape {α β : Type} {m : Except PyErr α} {f : α → Except PyErr β}
    {e : PyErr} (h : (m >>= f) = .error e) :
    m = .error e ∨ ∃ a, m = .ok a ∧ f a = .error e := by
  cases m with
  | error e' => left; cases h; rfl
  | ok a => right; exact ⟨a, rfl, h⟩

theorem hcc_to_hgs_err_shape {c : HCCCoord} {f : HGSFrame} {e : PyErr}
    (h : hcc_to_hgs c f = .error e) :
    e = .convertErr .hccHgsObserver ∨ e = .unitErr := by
  obtain ⟨obs, data⟩ := c
  cases obs with
  | label s => left; unfold hcc_to_hgs at h; cases h; rfl
  | frame b0 l0 rr =>
    unfold hcc_to_hgs at h
    dsimp only at h
    rcases bind_err_shape h with h' | ⟨xv, hx, h⟩
    · exact Or.inr (toM_err_shape h')
    rcases bind_err_shape h with h' | ⟨yv, hy, h⟩
    · exact Or.inr (toM_err_shape h')
    rcases bind_err_shape h with h' | ⟨zv, hz, h⟩
    · exact Or.inr (toM_err_shape h')
    exact absurd h (by simp)

theorem hgs_to_hcc_err_shape {c : HGSCoord} {f : HCCFrame} {e : PyErr}
    (h : hgs_to_hcc c f = .error e) :
    e = .convertErr .hgsHccObserver ∨ e = .unitErr := by
  obtain ⟨fobs⟩ := f
  cases fobs with
  | label s => left; unfold hgs_to_hcc at h; cases h; rfl
  | frame b0 l0 rr =>
    unfold hgs_to_hcc at h
    dsimp only at h
    rcases bind_err_shape h with h' | ⟨xv, hx, h⟩
    · exact Or.inr (toKm_err_shape h')
    rcases bind_err_shape h with h' | ⟨yv, hy, h⟩
    · exact Or.inr (toKm_err_shape h')
    rcases bind_err_shape h with h' | ⟨zv, hz, h⟩
    · exact Or.inr (toKm_err_shape h')
    exact absurd h (by simp)

theorem hcc_to_hcc_err_shape {c : HCCCoord} {f : HCCFrame} {e : PyErr}
    (h : hcc_to_hcc c f = .error e) :
    e = .valueErr .observersCompare ∨ e = .convertErr .hccHgsObserver ∨
      e = .convertErr .hgsHccObserver ∨ e = .unitErr := by
  unfold hcc_to_hcc at h
  rcases bind_err_shape h with h' | ⟨b, heq, h⟩
  · exact Or.inl (observersAreEqual_err_shape h')
  cases b with
  | true => exact absurd h (by simp)
  | false =>
    simp only [Bool.false_eq_true, if_false] at h
    rcases bind_err_shape h with h' | ⟨hgsC, hg, h⟩
    · rcases hcc_to_hgs_err_shape h' with h'' | h''
      · exact Or.inr (Or.inl h'')
      · exact Or.inr (Or.inr (Or.inr h''))
    · rcases hgs_to_hcc_err_shape h with h'' | h''
      · exact Or.inr (Or.inr (Or.inl h''))
      · exact Or.inr (Or.inr (Or.inr h''))

theorem hpcToHccSame_frame_err {c : HPCCoord} {la lo D : ℝ} {e : PyErr}
    (hobs : c.observer = .frame la lo D) (h : hpcToHccSame c = .error e) :
    e = .unitErr := by
  unfold hpcToHccSame at h
  rw [hobs] at h
  dsimp only at h
  rcases bind_err_shape h with h' | ⟨dm, hd, h⟩
  · exact toM_err_shape h'
  · exact absurd h (by simp)

/-! ### Claims C2, C7 (Stonyhurst ⟷ Carrington) -/

/-- Claim C2: with matching non-null instants on both frames, Stonyhurst to
Carrington adds the Carrington offset at that instant to the longitude and
leaves latitude and distance unchanged, and Carrington to Stonyhurst
subtracts the same offset, leaving latitude and distance unchanged. -/
theorem claim2_carrington_longitude_shift (L0 : ℤ → ℝ) (t : ℤ)
    (c₁ : HGSCoord) (f₁ : HGCFrame) (c₂ : HGCCoord) (f₂ : HGSFrame)
    (h₁ : c₁.obstime = some t) (h₂ : f₁.obstime = some t)
    (h₃ : c₂.obstime = some t) (h₄ : f₂.obstime = some t) :
    hgs_to_hgc L0 c₁ f₁ =
      .ok ⟨some t, ⟨c₁.srep.lon + L0 t, c₁.srep.lat, c₁.srep.dist⟩⟩ ∧
    hgc_to_hgs L0 c₂ f₂ =
      .ok ⟨some t, f₂.observer, ⟨c₂.srep.lon - L0 t, c₂.srep.lat, c₂.srep.dist⟩⟩ := by
  constructor
  · unfold hgs_to_hgc
    rw [h₁, h₂, if_neg (by simp)]
    rfl
  · unfold hgc_to_hgs
    rw [h₃, h₄, if_neg (by simp)]
    rfl

/-- Witness for C2 at a concrete input. -/
theorem claim2_witness :
    hgs_to_hgc (fun _ => 10) ⟨some 0, none, ⟨30, 40, ⟨2, .km⟩⟩⟩ ⟨some 0⟩ =
      .ok ⟨some 0, ⟨30 + 10, 40, ⟨2, .km⟩⟩⟩ ∧
    hgc_to_hgs (fun _ => 10) ⟨some 0, ⟨30, 40, ⟨2, .km⟩⟩⟩ ⟨some 0, none⟩ =
      .ok ⟨some 0, none, ⟨30 - 10, 40, ⟨2, .km⟩⟩⟩ :=
  claim2_carrington_longitude_shift (fun _ => 10) 0
    ⟨some 0, none, ⟨30, 40, ⟨2, .km⟩⟩⟩ ⟨some 0⟩
    ⟨some 0, ⟨30, 40, ⟨2, .km⟩⟩⟩ ⟨some 0, none⟩ rfl rfl rfl rfl

/-- Claim C7: both Stonyhurst-to-Carrington and Carrington-to-Stonyhurst
raise a `ValueError` whenever the two instants are non-null but differ, and
whenever either instant is null; no point is produced in those cases. -/
theorem claim7_obstime_errors (L0 : ℤ → ℝ) (c₁ : HGSCoord) (f₁ : HGCFrame)
    (c₂ : HGCCoord) (f₂ : HGSFrame) :
    (c₁.obstime = none ∨ f₁.obstime = none ∨ c₁.obstime ≠ f₁.obstime →
      hgs_to_hgc L0 c₁ f₁ = .error (.valueErr .hgsHgcObstime)) ∧
    (c₂.obstime = none ∨ f₂.obstime = none ∨ c₂.obstime ≠ f₂.obstime →
      hgc_to_hgs L0 c₂ f₂ = .error (.valueErr .hgcHgsObstime)) := by
  constructor
  · intro h
    have hcond : f₁.obstime = none ∨ f₁.obstime ≠ c₁.obstime := by
      by_cases hf : f₁.obstime = none
      · exact Or.inl hf
      · refine Or.inr fun he => ?_
        rcases h with h | h | h
        · exact hf (he.trans h)
        · exact hf h
        · exact h he.symm
    unfold hgs_to_hgc
    rw [if_pos hcond]
  · intro h
    have hcond : f₂.obstime = none ∨ f₂.obstime ≠ c₂.obstime := by
      by_cases hf : f₂.obstime = none
      · exact Or.inl hf
      · refine Or.inr fun he => ?_
        rcases h with h | h | h
        · exact hf (he.trans h)
        · exact hf h
        · exact h he.symm
    unfold hgc_to_hgs
    rw [if_pos hcond]

/-- Witness for C7: mismatched non-null instants and a null instant. -/
theorem claim7_witness :
    hgs_to_hgc (fun _ => 0) ⟨some 0, none, ⟨0, 0, ⟨1, .km⟩⟩⟩ ⟨some 1⟩ =
      .error (.valueErr .hgsHgcObstime) ∧
    hgc_to_hgs (fun _ => 0) ⟨none, ⟨0, 0, ⟨1, .km⟩⟩⟩ ⟨some 1, none⟩ =
      .error (.valueErr .hgcHgsObstime) :=
  ⟨(claim7_obstime_errors _ _ _ ⟨none, ⟨0, 0, ⟨1, .km⟩⟩⟩ ⟨some 1, none⟩).1
      (Or.inr (Or.inr (by decide))),
   (claim7_obstime_errors (fun _ => 0) ⟨some 0, none, ⟨0, 0, ⟨1, .km⟩⟩⟩ ⟨some 1⟩ _ _).2
      (Or.inl rfl)⟩

/-! ### Claim C9 (same-frame identity) -/

/-- Claim C9: same-frame transforms with matching parameters return the
input point's data unchanged, reinterpreted in the destination frame:
`hgs_to_hgs` and `hgc_to_hgc` with equal instants, `hcc_to_hcc` with
matching observers. -/
theorem claim9_identity :
    (∀ (gb : Body → ℤ → Vec3) (c : HGSCoord) (f : HGSFrame), c.obstime = f.obstime →
      hgs_to_hgs gb c f = .ok ⟨f.obstime, f.observer, c.srep⟩) ∧
    (∀ (gb : Body → ℤ → Vec3) (L0 : ℤ → ℝ) (c : HGCCoord) (f : HGCFrame),
      c.obstime = f.obstime →
      hgc_to_hgc gb L0 c f = .ok ⟨f.obstime, c.srep⟩) ∧
    (∀ (c : HCCCoord) (f : HCCFrame),
      observersAreEqual c.observer f.observer true = .ok true →
      hcc_to_hcc c f = .ok ⟨f.observer, c.data⟩) := by
  refine ⟨fun gb c f h => ?_, fun gb L0 c f h => ?_, fun c f h => ?_⟩
  · unfold hgs_to_hgs; rw [if_pos h]
  · unfold hgc_to_hgc; rw [if_pos h]
  · unfold hcc_to_hcc; rw [h, okBind]; rfl

/-- Witness for C9, covering equal instants and both equal-label and
equal-geometry observers. -/
theorem claim9_witness :
    hgs_to_hgs gbW ⟨some 3, none, ⟨1, 2, ⟨5, .m⟩⟩⟩ ⟨some 3, none⟩ =
      .ok ⟨some 3, none, ⟨1, 2, ⟨5, .m⟩⟩⟩ ∧
    hgc_to_hgc gbW (fun _ => 0) ⟨none, ⟨1, 2, ⟨5, .m⟩⟩⟩ ⟨none⟩ =
      .ok ⟨none, ⟨1, 2, ⟨5, .m⟩⟩⟩ ∧
    hcc_to_hcc ⟨.label "earth", ⟨⟨1, .m⟩, ⟨2, .m⟩, ⟨3, .m⟩⟩⟩ ⟨.label "earth"⟩ =
      .ok ⟨.label "earth", ⟨⟨1, .m⟩, ⟨2, .m⟩, ⟨3, .m⟩⟩⟩ ∧
    hcc_to_hcc ⟨.frame 0 0 2, ⟨⟨1, .m⟩, ⟨2, .m⟩, ⟨3, .m⟩⟩⟩ ⟨.frame 0 0 2⟩ =
      .ok ⟨.frame 0 0 2, ⟨⟨1, .m⟩, ⟨2, .m⟩, ⟨3, .m⟩⟩⟩ :=
  ⟨claim9_identity.1 gbW _ _ rfl, claim9_identity.2.1 gbW _ _ _ rfl,
   claim9_identity.2.2 _ _ rfl,
   claim9_identity.2.2 _ _ (observersAreEqual_refl 0 0 2 true)⟩

/-! ### Claim C5 (which observer does `hcc_to_hgs` check?) -/

/-- Claim C5 counterexample: `hcc_to_hgs` succeeds on an input whose
DESTINATION frame observer is a mere label (while the source coordinate's
observer is geometric), so "fails with an error whenever the destination
frame's observer is not a geometric Observer" is false: the guard never
inspects the destination frame's observer. -/
theorem claim5_counterexample :
    (hcc_to_hgs ⟨.frame 0 0 2, ⟨⟨1, .m⟩, ⟨0, .m⟩, ⟨0, .m⟩⟩⟩
      ⟨some 0, some (.label "earth")⟩).isOk = true := rfl

/-- Claim C5 as amended: `hcc_to_hgs` fails with its `ConvertError` exactly
when the SOURCE coordinate's observer is not geometric, and hence proceeds
to the spherical output only when the source observer is geometric. -/
theorem claim5_source_observer_guard (c : HCCCoord) (f : HGSFrame) (s : String)
    (h : c.observer = .label s) :
    hcc_to_hgs c f = .error (.convertErr .hccHgsObserver) := by
  unfold hcc_to_hgs
  rw [h]

/-- Witness for the amended C5. -/
theorem claim5_witness :
    hcc_to_hgs ⟨.label "earth", ⟨⟨1, .m⟩, ⟨0, .m⟩, ⟨0, .m⟩⟩⟩ ⟨some 0, none⟩ =
      .error (.convertErr .hccHgsObserver) :=
  claim5_source_observer_guard _ _ "earth" rfl

/-! ### Claim C6 (`hpc_to_hpc` with a label observer) -/

/-- Claim C6 (code bug): with non-identical observers of which either is a
label, `hpc_to_hpc` raises an `AttributeError` from the `allclose`
comparison's `.lat` access — not the `ConvertError` its own dedicated
invalid-observer branch was written to raise; that branch is dead code. -/
theorem claim6_label_attr_error :
    hpc_to_hpc ⟨.label "earth", .sph ⟨0, 0, ⟨1, .km⟩⟩⟩ ⟨.frame 0 0 2⟩ =
      .error .attrErr ∧
    hpc_to_hpc ⟨.frame 0 0 2, .sph ⟨0, 0, ⟨1, .km⟩⟩⟩ ⟨.label "earth"⟩ =
      .error .attrErr := ⟨rfl, rfl⟩

/-! ### Claim C10 (`hpc_to_hcc`'s `ConvertError` is unreachable) -/

/-- Claim C10: the observers-equality comparison in `hpc_to_hcc` is invoked
without permitting label comparison, so any non-geometric observer (even two
identical labels) raises the comparison's `ValueError` first, and the
function's own invalid-observer `ConvertError` is unreachable for every
input. -/
theorem claim10_convert_unreachable :
    (∀ (c : HPCCoord) (f : HCCFrame),
      hpc_to_hcc c f ≠ .error (.convertErr .hpcHccObserver)) ∧
    (∀ (c : HPCCoord) (f : HCCFrame),
      c.observer.isFrame = false ∨ f.observer.isFrame = false →
      hpc_to_hcc c f = .error (.valueErr .observersCompare)) := by
  constructor
  · intro c f h
    unfold hpc_to_hcc at h
    rcases bind_err_shape h with h' | ⟨b, heq, h⟩
    · exact PyErr.noConfusion (observersAreEqual_err_shape h')
    obtain ⟨⟨la, lo, r, hobs⟩, -⟩ := observersAreEqual_ok_shape heq
    cases b with
    | true =>
      simp only [if_true] at h
      rcases bind_err_shape h with h' | ⟨a, -, hfa⟩
      · exact PyErr.noConfusion (hpcToHccSame_frame_err hobs h')
      · exact Except.noConfusion hfa
    | false =>
      simp only [Bool.false_eq_true, if_false] at h
      rcases bind_err_shape h with h' | ⟨a, -, hfa⟩
      · exact PyErr.noConfusion (hpcToHccSame_frame_err hobs h')
      · rcases hcc_to_hcc_err_shape hfa with h'' | h'' | h'' | h'' <;> simp at h''
  · intro c f h
    unfold hpc_to_hcc
    rw [observersAreEqual_not_frames h, errBind]

/-- Witness for C10 at a concrete input: a label observer trips the
comparison's `ValueError` (and, per the first conjunct, never the
`ConvertError`). -/
theorem claim10_witness :
    hpc_to_hcc ⟨.label "earth", .sph ⟨0, 0, ⟨1, .km⟩⟩⟩ ⟨.frame 0 0 2⟩ =
      .error (.valueErr .observersCompare) :=
  claim10_convert_unreachable.2 _ _ (Or.inl rfl)

/-! ### Claim C1 (the `hcc_to_hpc` formula) -/

/-- Claim C1: for a Heliocentric coordinate with Cartesian components
`(x, y, z)` in meters and (matching) observers at radial distance `D`,
`hcc_to_hpc` returns a full spherical point with apparent distance
`sqrt(x² + y² + (D − z)²)` (stored in km), projected longitude
`atan2(x, D − z)` in degrees and projected latitude `asin(y / distance)` in
degrees. -/
theorem claim1_hcc_to_hpc_formula (x y z la lo D la' lo' D' : ℝ)
    (h₁ : isClose la la') (h₂ : isClose lo lo') (h₃ : isClose D D') :
    hcc_to_hpc ⟨.frame la lo D, ⟨⟨x, .m⟩, ⟨y, .m⟩, ⟨z, .m⟩⟩⟩ ⟨.frame la' lo' D'⟩ =
      .ok ⟨.frame la' lo' D',
        .sph ⟨rad2deg (arctan2 x (D - z)),
              rad2deg (arcsin (y / sqrt (x ^ 2 + y ^ 2 + (D - z) ^ 2))),
              ⟨sqrt (x ^ 2 + y ^ 2 + (D - z) ^ 2) / 1000, .km⟩⟩⟩ := by
  unfold hcc_to_hpc
  rw [observersAreEqual_frames false ⟨h₁, h₂, h₃⟩, okBind]
  rfl

/-- Witness for C1 at a concrete input. -/
theorem claim1_witness :
    hcc_to_hpc ⟨.frame 0 0 2, ⟨⟨0, .m⟩, ⟨0, .m⟩, ⟨0, .m⟩⟩⟩ ⟨.frame 0 0 2⟩ =
      .ok ⟨.frame 0 0 2,
        .sph ⟨rad2deg (arctan2 0 (2 - 0)),
              rad2deg (arcsin (0 / sqrt (0 ^ 2 + 0 ^ 2 + (2 - 0) ^ 2))),
              ⟨sqrt (0 ^ 2 + 0 ^ 2 + (2 - 0) ^ 2) / 1000, .km⟩⟩⟩ :=
  claim1_hcc_to_hpc_formula 0 0 0 0 0 2 0 0 2
    (isClose_refl _) (isClose_refl _) (isClose_refl _)

/-! ### Claim C8 (`hgs_to_hcc` dimensionless-distance default) -/

/-- Claim C8: in `hgs_to_hcc` a dimensionless input distance approximately
equal to 1 is replaced by exactly one solar radius before the Cartesian
output is computed; a distance with a physical unit (meters or kilometers)
is used as given, and a dimensionless distance not approximately 1 is also
used as given — it is not replaced, so the final kilometer conversion of the
Cartesian components fails on it. -/
theorem claim8_unit_distance_default (lonv latv b0 l0 R : ℝ) (ot : Option ℤ)
    (obs0 : Option Observer) :
    (∀ rv : ℝ, isClose rv 1 →
      hgs_to_hcc ⟨ot, obs0, ⟨lonv, latv, ⟨rv, .one⟩⟩⟩ ⟨.frame b0 l0 R⟩ =
        .ok ⟨.frame b0 l0 R,
          ⟨⟨rsunValue * (Real.cos (deg2rad latv) *
              Real.sin (deg2rad lonv - deg2rad l0)) / 1000, .km⟩,
           ⟨rsunValue * (Real.sin (deg2rad latv) * Real.cos (deg2rad b0) -
              Real.cos (deg2rad latv) * Real.cos (deg2rad lonv - deg2rad l0) *
                Real.sin (deg2rad b0)) / 1000, .km⟩,
           ⟨rsunValue * (Real.sin (deg2rad latv) * Real.sin (deg2rad b0) +
              Real.cos (deg2rad latv) * Real.cos (deg2rad lonv - deg2rad l0) *
                Real.cos (deg2rad b0)) / 1000, .km⟩⟩⟩) ∧
    (∀ rv : ℝ,
      hgs_to_hcc ⟨ot, obs0, ⟨lonv, latv, ⟨rv, .m⟩⟩⟩ ⟨.frame b0 l0 R⟩ =
        .ok ⟨.frame b0 l0 R,
          ⟨⟨rv * (Real.cos (deg2rad latv) *
              Real.sin (deg2rad lonv - deg2rad l0)) / 1000, .km⟩,
           ⟨rv * (Real.sin (deg2rad latv) * Real.cos (deg2rad b0) -
              Real.cos (deg2rad latv) * Real.cos (deg2rad lonv - deg2rad l0) *
                Real.sin (deg2rad b0)) / 1000, .km⟩,
           ⟨rv * (Real.sin (deg2rad latv) * Real.sin (deg2rad b0) +
              Real.cos (deg2rad latv) * Real.cos (deg2rad lonv - deg2rad l0) *
                Real.cos (deg2rad b0)) / 1000, .km⟩⟩⟩) ∧
    (∀ rv : ℝ,
      hgs_to_hcc ⟨ot, obs0, ⟨lonv, latv, ⟨rv, .km⟩⟩⟩ ⟨.frame b0 l0 R⟩ =
        .ok ⟨.frame b0 l0 R,
          ⟨⟨rv * (Real.cos (deg2rad latv) *
              Real.sin (deg2rad lonv - deg2rad l0)), .km⟩,
           ⟨rv * (Real.sin (deg2rad latv) * Real.cos (deg2rad b0) -
              Real.cos (deg2rad latv) * Real.cos (deg2rad lonv - deg2rad l0) *
                Real.sin (deg2rad b0)), .km⟩,
           ⟨rv * (Real.sin (deg2rad latv) * Real.sin (deg2rad b0) +
              Real.cos (deg2rad latv) * Real.cos (deg2rad lonv - deg2rad l0) *
                Real.cos (deg2rad b0)), .km⟩⟩⟩) ∧
    (∀ rv : ℝ, ¬isClose rv 1 →
      hgs_to_hcc ⟨ot, obs0, ⟨lonv, latv, ⟨rv, .one⟩⟩⟩ ⟨.frame b0 l0 R⟩ =
        .error .unitErr) := by
  refine ⟨fun rv h => ?_, fun rv => ?_, fun rv => ?_, fun rv h => ?_⟩
  · unfold hgs_to_hcc
    dsimp only
    rw [if_pos ⟨rfl, h⟩]
    rfl
  · unfold hgs_to_hcc
    dsimp only
    rw [if_neg (by rintro ⟨hc, -⟩; exact LUnit.noConfusion hc)]
    rfl
  · unfold hgs_to_hcc
    dsimp only
    rw [if_neg (by rintro ⟨hc, -⟩; exact LUnit.noConfusion hc)]
    rfl
  · unfold hgs_to_hcc
    dsimp only
    rw [if_neg (by rintro ⟨-, hc⟩; exact h hc)]
    rfl

/-- Witness for C8: a dimensionless distance exactly 1 is replaced by the
solar radius; a dimensionless distance 3 is not, and the kilometer
conversion fails. -/
theorem claim8_witness :
    hgs_to_hcc ⟨none, none, ⟨0, 0, ⟨1, .one⟩⟩⟩ ⟨.frame 0 0 2⟩ =
      .ok ⟨.frame 0 0 2,
        ⟨⟨rsunValue * (Real.cos (deg2rad 0) * Real.sin (deg2rad 0 - deg2rad 0)) / 1000,
            .km⟩,
         ⟨rsunValue * (Real.sin (deg2rad 0) * Real.cos (deg2rad 0) -
            Real.cos (deg2rad 0) * Real.cos (deg2rad 0 - deg2rad 0) *
              Real.sin (deg2rad 0)) / 1000, .km⟩,
         ⟨rsunValue * (Real.sin (deg2rad 0) * Real.sin (deg2rad 0) +
            Real.cos (deg2rad 0) * Real.cos (deg2rad 0 - deg2rad 0) *
              Real.cos (deg2rad 0)) / 1000, .km⟩⟩⟩ ∧
    hgs_to_hcc ⟨none, none, ⟨0, 0, ⟨3, .one⟩⟩⟩ ⟨.frame 0 0 2⟩ = .error .unitErr :=
  ⟨(claim8_unit_distance_default 0 0 0 0 2 none none).1 1
      (by simp [isClose]; norm_num),
   (claim8_unit_distance_default 0 0 0 0 2 none none).2.2.2 3
      (by simp [isClose]; norm_num)⟩

/-! ### Rotation-matrix orthogonality (for C4 and the affine round trip) -/

theorem dot3_pos_of_ne_zero {v : Vec3} (h : v ≠ 0) : 0 < dot3 v v := by
  obtain ⟨i, hi⟩ := Function.ne_iff.mp h
  have hi' : v i ≠ 0 := by simpa using hi
  have hp : 0 < v i * v i := mul_self_pos.mpr hi'
  unfold dot3
  fin_cases i
  · have hp0 : 0 < v 0 * v 0 := hp
    nlinarith [mul_self_nonneg (v 1), mul_self_nonneg (v 2), hp0]
  · have hp1 : 0 < v 1 * v 1 := hp
    nlinarith [mul_self_nonneg (v 0), mul_self_nonneg (v 2), hp1]
  · have hp2 : 0 < v 2 * v 2 := hp
    nlinarith [mul_self_nonneg (v 0), mul_self_nonneg (v 1), hp2]

theorem dot3_normalize {v : Vec3} (h : v ≠ 0) :
    dot3 (normalize3 v) (normalize3 v) = 1 := by
  have hpos := dot3_pos_of_ne_zero h
  have hs : norm3 v * norm3 v = dot3 v v := Real.mul_self_sqrt hpos.le
  have hns : norm3 v ≠ 0 := by
    unfold norm3
    positivity
  unfold dot3 normalize3 at *
  field_simp
  linarith [hs]

theorem crossMat_transpose (n : Vec3) : (crossMat n).transpose = -crossMat n := by
  ext i j
  fin_cases i <;> fin_cases j <;>
    simp [crossMat, Matrix.transpose_apply]

theorem vecMulVec_self_transpose (n : Vec3) :
    (Matrix.vecMulVec n n).transpose = Matrix.vecMulVec n n := by
  ext i j
  simp [Matrix.vecMulVec_apply, Matrix.transpose_apply, mul_comm]

theorem crossMat_mul_vecMulVec (n : Vec3) :
    crossMat n * Matrix.vecMulVec n n = 0 := by
  ext i j
  fin_cases i <;> fin_cases j <;>
    simp [crossMat, Matrix.mul_apply, Fin.sum_univ_three, Matrix.vecMulVec_apply] <;>
    ring

theorem vecMulVec_mul_crossMat (n : Vec3) :
    Matrix.vecMulVec n n * crossMat n = 0 := by
  ext i j
  fin_cases i <;> fin_cases j <;>
    simp [crossMat, Matrix.mul_apply, Fin.sum_univ_three, Matrix.vecMulVec_apply] <;>
    ring

theorem vecMulVec_mul_self (n : Vec3) (h : dot3 n n = 1) :
    Matrix.vecMulVec n n * Matrix.vecMulVec n n = Matrix.vecMulVec n n := by
  unfold dot3 at h
  ext i j
  simp only [Matrix.mul_apply, Fin.sum_univ_three, Matrix.vecMulVec_apply]
  linear_combination (n i * n j) * h

theorem crossMat_mul_self (n : Vec3) (h : dot3 n n = 1) :
    crossMat n * crossMat n = Matrix.vecMulVec n n - 1 := by
  unfold dot3 at h
  ext i j
  fin_cases i <;> fin_cases j <;>
    simp [crossMat, Matrix.mul_apply, Fin.sum_univ_three, Matrix.vecMulVec_apply,
      Matrix.sub_apply, Matrix.one_apply] <;>
    first
      | ring1
      | linear_combination -h

theorem rodriguesOrthog (c s : ℝ) (n : Vec3) (h1 : c ^ 2 + s ^ 2 = 1)
    (h2 : dot3 n n = 1) :
    (c • (1 : Mat3) - s • crossMat n + (1 - c) • Matrix.vecMulVec n n).transpose *
      (c • (1 : Mat3) - s • crossMat n + (1 - c) • Matrix.vecMulVec n n) = 1 := by
  have hRt : (c • (1 : Mat3) - s • crossMat n + (1 - c) • Matrix.vecMulVec n n).transpose =
      c • (1 : Mat3) + s • crossMat n + (1 - c) • Matrix.vecMulVec n n := by
    rw [Matrix.transpose_add, Matrix.transpose_sub, Matrix.transpose_smul,
      Matrix.transpose_smul, Matrix.transpose_smul, Matrix.transpose_one,
      crossMat_transpose, vecMulVec_self_transpose, smul_neg, sub_neg_eq_add]
  rw [hRt]
  simp only [Matrix.add_mul, Matrix.sub_mul, Matrix.mul_add, Matrix.mul_sub,
    Matrix.smul_mul, Matrix.mul_smul, smul_smul, Matrix.one_mul, Matrix.mul_one,
    crossMat_mul_self n h2, crossMat_mul_vecMulVec, vecMulVec_mul_crossMat,
    vecMulVec_mul_self n h2, smul_zero, add_zero, sub_zero, zero_sub, zero_add,
    smul_sub]
  match_scalars <;> first | ring1 | linear_combination h1 | linear_combination -h1

theorem rotationMatrix3_orthog (θ : ℝ) (axis : Vec3) (h : axis ≠ 0) :
    (rotationMatrix3 θ axis).transpose * rotationMatrix3 θ axis = 1 := by
  unfold rotationMatrix3
  exact rodriguesOrthog _ _ _ (Real.cos_sq_add_sin_sq θ) (dot3_normalize h)

theorem mkRotFromReprs_orthog (A B : Vec3) (h : cross3 A B ≠ 0) :
    (mkRotFromReprs A B).transpose * mkRotFromReprs A B = 1 :=
  rotationMatrix3_orthog _ _ h

theorem mul_orthog {A B : Mat3} (hA : A.transpose * A = 1) (hB : B.transpose * B = 1) :
    (A * B).transpose * (A * B) = 1 := by
  rw [Matrix.transpose_mul, Matrix.mul_assoc, ← Matrix.mul_assoc A.transpose, hA,
    Matrix.one_mul, hB]

theorem cos_deg2rad_pos_small {d : ℝ} (h0 : 0 ≤ d) (h1 : d < 90) :
    0 < Real.cos (deg2rad d) := by
  unfold deg2rad
  apply Real.cos_pos_of_mem_Ioo
  constructor
  · nlinarith [Real.pi_pos]
  · nlinarith [Real.pi_pos]

theorem cos_deg2rad_286 : 0 < Real.cos (deg2rad 286.13) := by
  have h : Real.cos (deg2rad 286.13) = Real.cos (deg2rad 286.13 - 2 * Real.pi) :=
    (Real.cos_sub_two_pi _).symm
  rw [h]
  apply Real.cos_pos_of_mem_Ioo
  unfold deg2rad
  constructor
  · nlinarith [Real.pi_pos]
  · nlinarith [Real.pi_pos]

theorem detilt_axis_ne_zero : cross3 solarNorthPole (v3 0 0 1) ≠ 0 := by
  intro hcon
  have h2 := congrFun hcon 1
  simp [cross3, v3, solarNorthPole] at h2
  have hb : 0 < Real.cos (deg2rad 63.87) := cos_deg2rad_pos_small (by norm_num) (by norm_num)
  rcases h2 with h2 | h2
  · exact absurd h2 (ne_of_gt hb)
  · exact absurd h2 (ne_of_gt cos_deg2rad_286)

theorem detilt_orthog : sunDetiltMatrix.transpose * sunDetiltMatrix = 1 :=
  mkRotFromReprs_orthog _ _ detilt_axis_ne_zero

theorem totalMatrixAt_orthog (gb : Body → ℤ → Vec3) (t : ℤ)
    (h : cross3 (hgsXaxisDetilt gb t) (v3 1 0 0) ≠ 0) :
    (totalMatrixAt gb t).transpose * totalMatrixAt gb t = 1 :=
  mul_orthog (mkRotFromReprs_orthog _ _ h) detilt_orthog

/-! ### Claim C4 (affine transform: orthonormality and the cheap reverse) -/

/-- Claim C4: the rotation matrix of the inertial-to-Stonyhurst affine
transform is orthonormal (`Mᵀ * M = 1`) for scalar instants and for every
element of an array-instant computation (given the geometric nondegeneracy
of the per-instant rotation axes), and the reverse transform is obtained by
invoking the forward computation with its arguments swapped and returning
the transposed matrix together with the negated offset rotated by it, with
no further ephemeris lookups. -/
theorem claim4_affine_orthonormal_reverse (gb : Body → ℤ → Vec3) (t : ℤ)
    (ts : List ℤ)
    (h : cross3 (hgsXaxisDetilt gb t) (v3 1 0 0) ≠ 0)
    (hs : ∀ t' ∈ ts, cross3 (hgsXaxisDetilt gb t') (v3 1 0 0) ≠ 0) :
    (totalMatrixAt gb t).transpose * totalMatrixAt gb t = 1 ∧
    (∀ M ∈ totalMatrixList gb ts, M.transpose * M = 1) ∧
    ∀ hgsT hcrsT : Option ℤ, hgs_to_hcrs gb hgsT hcrsT =
      (hcrs_to_hgs gb hcrsT hgsT).map
        (fun p => (p.1.transpose, p.1.transpose.mulVec (-p.2))) := by
  refine ⟨totalMatrixAt_orthog gb t h, ?_, ?_⟩
  · intro M hM
    simp only [totalMatrixList] at hM
    rcases List.mem_map.mp hM with ⟨t', ht', rfl⟩
    exact totalMatrixAt_orthog gb t' (hs t' ht')
  · intro hgsT hcrsT
    unfold hgs_to_hcrs
    cases hr : hcrs_to_hgs gb hcrsT hgsT with
    | error e => rfl
    | ok p => rfl

/-- For the concrete oracle `gbW`, the per-instant rotation axis is
nondegenerate at every instant. -/
theorem gbW_axis_ne (t : ℤ) : cross3 (hgsXaxisDetilt gbW t) (v3 1 0 0) ≠ 0 := by
  have hD : sunDetiltMatrix * sunDetiltMatrix.transpose = 1 :=
    Matrix.mul_eq_one_comm.mp detilt_orthog
  have h1 : hgsXaxisDetilt gbW t = v3 0 1 0 := by
    unfold hgsXaxisDetilt
    simp only [gbW, sub_zero, Matrix.mulVec_mulVec, hD, Matrix.one_mulVec]
    funext i
    fin_cases i <;> simp [v3]
  rw [h1]
  intro hcon
  have h2 := congrFun hcon 2
  simp [cross3, v3] at h2

/-- Witness for C4: a concrete ephemeris oracle placing the Earth so that
the de-tilted Sun-Earth vector is the Y axis, at the instant 0 (scalar) and
the one-element array `[0]`. -/
theorem claim4_witness :
    cross3 (hgsXaxisDetilt gbW 0) (v3 1 0 0) ≠ 0 ∧
    (totalMatrixAt gbW 0).transpose * totalMatrixAt gbW 0 = 1 ∧
    (∀ M ∈ totalMatrixList gbW [0], M.transpose * M = 1) ∧
    (∀ hgsT hcrsT : Option ℤ, hgs_to_hcrs gbW hgsT hcrsT =
      (hcrs_to_hgs gbW hcrsT hgsT).map
        (fun p => (p.1.transpose, p.1.transpose.mulVec (-p.2)))) := by
  have hch := claim4_affine_orthonormal_reverse gbW 0 [0] (gbW_axis_ne 0)
    (by intro t' ht'; simp only [List.mem_singleton] at ht'; subst ht'; exact gbW_axis_ne 0)
  exact ⟨gbW_axis_ne 0, hch.1, hch.2.1, hch.2.2⟩

/-! ### Trigonometric helpers for the round-trip claims -/

theorem deg2rad_rad2deg (r : ℝ) : deg2rad (rad2deg r) = r := by
  unfold deg2rad rad2deg
  field_simp

theorem sin_arctan2 (y x : ℝ) :
    Real.sin (arctan2 y x) = y / sqrt (x ^ 2 + y ^ 2) := by
  unfold arctan2
  rw [Complex.sin_arg]
  have habs : Complex.abs ⟨x, y⟩ = sqrt (x ^ 2 + y ^ 2) := by
    rw [Complex.abs_apply, Complex.normSq_mk]
    ring_nf
  rw [habs]

theorem cos_arctan2 (y x : ℝ) (h : x ≠ 0 ∨ y ≠ 0) :
    Real.cos (arctan2 y x) = x / sqrt (x ^ 2 + y ^ 2) := by
  unfold arctan2
  have hz : (⟨x, y⟩ : ℂ) ≠ 0 := by
    simp only [ne_eq, Complex.ext_iff, Complex.zero_re, Complex.zero_im, not_and_or]
    tauto
  rw [Complex.cos_arg hz]
  have habs : Complex.abs ⟨x, y⟩ = sqrt (x ^ 2 + y ^ 2) := by
    rw [Complex.abs_apply, Complex.normSq_mk]
    ring_nf
  rw [habs]

theorem sqrt_sum_sq_pos {a b : ℝ} (h : a ≠ 0 ∨ b ≠ 0) :
    0 < sqrt (a ^ 2 + b ^ 2) := by
  apply Real.sqrt_pos.mpr
  rcases h with h | h
  · have ha : 0 < a ^ 2 := by positivity
    nlinarith [sq_nonneg b]
  · have hb : 0 < b ^ 2 := by positivity
    nlinarith [sq_nonneg a]

theorem cos_arcsin_div {a d : ℝ} (hd : 0 < d) (ha : a ^ 2 ≤ d ^ 2) :
    Real.cos (arcsin (a / d)) = sqrt (d ^ 2 - a ^ 2) / d := by
  rw [Real.cos_arcsin]
  have h1 : 1 - (a / d) ^ 2 = (d ^ 2 - a ^ 2) / d ^ 2 := by
    field_simp
  rw [h1, Real.sqrt_div (by nlinarith), Real.sqrt_sq hd.le]

theorem sin_arcsin_div {a d : ℝ} (hd : 0 < d) (ha : a ^ 2 ≤ d ^ 2) :
    Real.sin (arcsin (a / d)) = a / d := by
  apply Real.sin_arcsin
  · rw [neg_le, ← neg_div]
    apply div_le_one_of_le₀ _ hd.le
    nlinarith
  · apply div_le_one_of_le₀ _ hd.le
    nlinarith

/-! ### Single-hop evaluation lemmas and the four round trips of C3 -/

theorem hcc_to_hpc_same_obs (x y z la lo D : ℝ) :
    hcc_to_hpc ⟨.frame la lo D, ⟨⟨x, .m⟩, ⟨y, .m⟩, ⟨z, .m⟩⟩⟩ ⟨.frame la lo D⟩ =
      .ok ⟨.frame la lo D,
        .sph ⟨rad2deg (arctan2 x (D - z)),
              rad2deg (arcsin (y / sqrt (x ^ 2 + y ^ 2 + (D - z) ^ 2))),
              ⟨sqrt (x ^ 2 + y ^ 2 + (D - z) ^ 2) / 1000, .km⟩⟩⟩ := by
  unfold hcc_to_hpc
  rw [observersAreEqual_refl, okBind]
  rfl

theorem hpc_to_hcc_same_obs (lonv latv dv la lo D : ℝ) :
    hpc_to_hcc ⟨.frame la lo D, .sph ⟨lonv, latv, ⟨dv, .km⟩⟩⟩ ⟨.frame la lo D⟩ =
      .ok ⟨.frame la lo D,
        ⟨⟨dv * 1000 * Real.cos (deg2rad latv) * Real.sin (deg2rad lonv) / 1000, .km⟩,
         ⟨dv * 1000 * Real.sin (deg2rad latv) / 1000, .km⟩,
         ⟨(D - dv * 1000 * Real.cos (deg2rad latv) * Real.cos (deg2rad lonv)) / 1000,
           .km⟩⟩⟩ := by
  unfold hpc_to_hcc
  rw [observersAreEqual_refl, okBind]
  rfl

theorem hcc_to_hgs_m (x y z la lo D : ℝ) (ot : Option ℤ) (obs₂ : Option Observer) :
    hcc_to_hgs ⟨.frame la lo D, ⟨⟨x, .m⟩, ⟨y, .m⟩, ⟨z, .m⟩⟩⟩ ⟨ot, obs₂⟩ =
      .ok ⟨ot, obs₂,
        ⟨rad2deg (arctan2 x (z * Real.cos (deg2rad la) - y * Real.sin (deg2rad la)) +
            deg2rad lo),
         rad2deg (arcsin ((y * Real.cos (deg2rad la) + z * Real.sin (deg2rad la)) /
            sqrt (x ^ 2 + y ^ 2 + z ^ 2))),
         ⟨sqrt (x ^ 2 + y ^ 2 + z ^ 2) / 1000, .km⟩⟩⟩ := by
  unfold hcc_to_hgs
  rfl

theorem hgs_to_hcc_km (ot : Option ℤ) (obs₀ : Option Observer) (lonv latv dv la lo D : ℝ) :
    hgs_to_hcc ⟨ot, obs₀, ⟨lonv, latv, ⟨dv, .km⟩⟩⟩ ⟨.frame la lo D⟩ =
      .ok ⟨.frame la lo D,
        ⟨⟨dv * (Real.cos (deg2rad latv) * Real.sin (deg2rad lonv - deg2rad lo)), .km⟩,
         ⟨dv * (Real.sin (deg2rad latv) * Real.cos (deg2rad la) -
            Real.cos (deg2rad latv) * Real.cos (deg2rad lonv - deg2rad lo) *
              Real.sin (deg2rad la)), .km⟩,
         ⟨dv * (Real.sin (deg2rad latv) * Real.sin (deg2rad la) +
            Real.cos (deg2rad latv) * Real.cos (deg2rad lonv - deg2rad lo) *
              Real.cos (deg2rad la)), .km⟩⟩⟩ := by
  unfold hgs_to_hcc
  dsimp only
  rw [if_neg (by rintro ⟨hc, -⟩; exact LUnit.noConfusion hc)]
  rfl

theorem rt_hgs_hgc (L0 : ℤ → ℝ) (t : ℤ) (obs₁ obs₂ : Option Observer) (s : SphRep) :
    (do
      let p ← hgs_to_hgc L0 ⟨some t, obs₁, s⟩ ⟨some t⟩
      hgc_to_hgs L0 p ⟨some t, obs₂⟩) = .ok ⟨some t, obs₂, s⟩ := by
  have h1 : hgs_to_hgc L0 ⟨some t, obs₁, s⟩ ⟨some t⟩ =
      .ok ⟨some t, ⟨s.lon + L0 t, s.lat, s.dist⟩⟩ := by
    unfold hgs_to_hgc
    rw [if_neg (by simp)]
    rfl
  rw [h1, okBind]
  unfold hgc_to_hgs
  rw [if_neg (by simp)]
  show (Except.ok ⟨some t, obs₂, ⟨s.lon + L0 t - L0 t, s.lat, s.dist⟩⟩ :
      Except PyErr HGSCoord) = Except.ok ⟨some t, obs₂, s⟩
  rw [add_sub_cancel_right]

theorem rt_hcrs_hgs (gb : Body → ℤ → Vec3) (t₀ t₁ : ℤ) (v : Vec3)
    (h : cross3 (hgsXaxisDetilt gb t₁) (v3 1 0 0) ≠ 0) :
    (do
      let fwd ← hcrs_to_hgs gb (some t₀) (some t₁)
      let bwd ← hgs_to_hcrs gb (some t₁) (some t₀)
      Except.ok (applyAffine bwd (applyAffine fwd v))) = .ok v := by
  have hM := totalMatrixAt_orthog gb t₁ h
  by_cases ht : (some t₀ : Option ℤ) = some t₁
  · have hfwd : hcrs_to_hgs gb (some t₀) (some t₁) = .ok (totalMatrixAt gb t₁, 0) := by
      unfold hcrs_to_hgs
      dsimp only
      rw [if_neg (not_not_intro ht)]
    unfold hgs_to_hcrs
    simp only [hfwd, okBind]
    unfold applyAffine
    dsimp only
    rw [neg_zero, Matrix.mulVec_zero, add_zero, add_zero, Matrix.mulVec_mulVec, hM,
      Matrix.one_mulVec]
  · have hfwd : hcrs_to_hgs gb (some t₀) (some t₁) =
        .ok (totalMatrixAt gb t₁,
          (totalMatrixAt gb t₁).mulVec (gb .sun t₁ - gb .sun t₀)) := by
      unfold hcrs_to_hgs
      dsimp only
      rw [if_pos ht]
    unfold hgs_to_hcrs
    simp only [hfwd, okBind]
    unfold applyAffine
    dsimp only
    simp only [Matrix.mulVec_add, Matrix.mulVec_mulVec, hM, Matrix.one_mulVec,
      Matrix.mulVec_neg]
    refine congrArg Except.ok ?_
    abel

theorem rt_hcc_hpc (x y z la lo D : ℝ) (hw : x ≠ 0 ∨ D - z ≠ 0) :
    (do
      let p ← hcc_to_hpc ⟨.frame la lo D, ⟨⟨x, .m⟩, ⟨y, .m⟩, ⟨z, .m⟩⟩⟩ ⟨.frame la lo D⟩
      hpc_to_hcc p ⟨.frame la lo D⟩) =
      .ok ⟨.frame la lo D, ⟨⟨x / 1000, .km⟩, ⟨y / 1000, .km⟩, ⟨z / 1000, .km⟩⟩⟩ := by
  rw [hcc_to_hpc_same_obs, okBind, hpc_to_hcc_same_obs]
  simp only [deg2rad_rad2deg]
  have hS : (0 : ℝ) < x ^ 2 + y ^ 2 + (D - z) ^ 2 := by
    rcases hw with h | h
    · have hx : 0 < x ^ 2 := by positivity
      nlinarith [sq_nonneg y, sq_nonneg (D - z)]
    · have hz : 0 < (D - z) ^ 2 := by positivity
      nlinarith [sq_nonneg x, sq_nonneg y]
  have hdpos : 0 < sqrt (x ^ 2 + y ^ 2 + (D - z) ^ 2) := Real.sqrt_pos.mpr hS
  have hd2 : sqrt (x ^ 2 + y ^ 2 + (D - z) ^ 2) ^ 2 = x ^ 2 + y ^ 2 + (D - z) ^ 2 :=
    Real.sq_sqrt hS.le
  have hy2 : y ^ 2 ≤ sqrt (x ^ 2 + y ^ 2 + (D - z) ^ 2) ^ 2 := by
    rw [hd2]
    nlinarith [sq_nonneg x, sq_nonneg (D - z)]
  have hrw : sqrt (x ^ 2 + y ^ 2 + (D - z) ^ 2) ^ 2 - y ^ 2 = (D - z) ^ 2 + x ^ 2 := by
    rw [hd2]
    ring
  have hWpos : 0 < sqrt ((D - z) ^ 2 + x ^ 2) := sqrt_sum_sq_pos hw.symm
  rw [cos_arcsin_div hdpos hy2, hrw, sin_arcsin_div hdpos hy2, sin_arctan2,
    cos_arctan2 x (D - z) hw.symm]
  refine congrArg Except.ok ?_
  simp only [HCCCoord.mk.injEq, CartRep.mk.injEq, Qty.mk.injEq, and_true, true_and]
  refine ⟨?_, ?_, ?_⟩ <;> field_simp

theorem rt_hcc_hgs (x y z la lo D : ℝ) (ot : Option ℤ) (obs₂ : Option Observer)
    (hw : x ≠ 0 ∨ z * Real.cos (deg2rad la) - y * Real.sin (deg2rad la) ≠ 0) :
    (do
      let p ← hcc_to_hgs ⟨.frame la lo D, ⟨⟨x, .m⟩, ⟨y, .m⟩, ⟨z, .m⟩⟩⟩ ⟨ot, obs₂⟩
      hgs_to_hcc p ⟨.frame la lo D⟩) =
      .ok ⟨.frame la lo D, ⟨⟨x / 1000, .km⟩, ⟨y / 1000, .km⟩, ⟨z / 1000, .km⟩⟩⟩ := by
  rw [hcc_to_hgs_m, okBind, hgs_to_hcc_km]
  simp only [deg2rad_rad2deg]
  rw [add_sub_cancel_right]
  have hpy : Real.cos (deg2rad la) ^ 2 + Real.sin (deg2rad la) ^ 2 = 1 :=
    Real.cos_sq_add_sin_sq _
  have hS : (0 : ℝ) < x ^ 2 + y ^ 2 + z ^ 2 := by
    rcases hw with h | h
    · have hx : 0 < x ^ 2 := by positivity
      nlinarith [sq_nonneg y, sq_nonneg z]
    · by_contra hc
      push_neg at hc
      have hy0 : y ^ 2 = 0 := le_antisymm (by nlinarith [sq_nonneg x, sq_nonneg z]) (sq_nonneg y)
      have hz0 : z ^ 2 = 0 := le_antisymm (by nlinarith [sq_nonneg x, sq_nonneg y]) (sq_nonneg z)
      have hy' : y = 0 := by
        have := sq_eq_zero_iff.mp hy0
        exact this
      have hz' : z = 0 := by
        have := sq_eq_zero_iff.mp hz0
        exact this
      apply h
      rw [hy', hz']
      ring
  have hdpos : 0 < sqrt (x ^ 2 + y ^ 2 + z ^ 2) := Real.sqrt_pos.mpr hS
  have hd2 : sqrt (x ^ 2 + y ^ 2 + z ^ 2) ^ 2 = x ^ 2 + y ^ 2 + z ^ 2 := Real.sq_sqrt hS.le
  have hkey : sqrt (x ^ 2 + y ^ 2 + z ^ 2) ^ 2 -
      (y * Real.cos (deg2rad la) + z * Real.sin (deg2rad la)) ^ 2 =
      (z * Real.cos (deg2rad la) - y * Real.sin (deg2rad la)) ^ 2 + x ^ 2 := by
    rw [hd2]
    linear_combination (-(y ^ 2 + z ^ 2)) * hpy
  have ha2 : (y * Real.cos (deg2rad la) + z * Real.sin (deg2rad la)) ^ 2 ≤
      sqrt (x ^ 2 + y ^ 2 + z ^ 2) ^ 2 := by
    nlinarith [hkey, sq_nonneg (z * Real.cos (deg2rad la) - y * Real.sin (deg2rad la)),
      sq_nonneg x]
  have hWpos : 0 < sqrt ((z * Real.cos (deg2rad la) - y * Real.sin (deg2rad la)) ^ 2 + x ^ 2) :=
    sqrt_sum_sq_pos hw.symm
  rw [cos_arcsin_div hdpos ha2, hkey, sin_arcsin_div hdpos ha2, sin_arctan2,
    cos_arctan2 x (z * Real.cos (deg2rad la) - y * Real.sin (deg2rad la)) hw.symm]
  refine congrArg Except.ok ?_
  simp only [HCCCoord.mk.injEq, CartRep.mk.injEq, Qty.mk.injEq, and_true, true_and]
  refine ⟨?_, ?_, ?_⟩ <;> field_simp
  · ring
  · linear_combination (1000 * Real.sqrt (x ^ 2 + y ^ 2 + z ^ 2) ^ 2 *
      Real.sqrt ((z * Real.cos (deg2rad la) - y * Real.sin (deg2rad la)) ^ 2 + x ^ 2) * y) * hpy
  · linear_combination (1000 * Real.sqrt (x ^ 2 + y ^ 2 + z ^ 2) ^ 2 *
      Real.sqrt ((z * Real.cos (deg2rad la) - y * Real.sin (deg2rad la)) ^ 2 + x ^ 2) * z) * hpy

/-- Claim C3: round trips.  For each frame pair with transforms in both
directions, applying the forward and then the reverse transform reproduces
the point exactly (the real-number idealization of "within floating-point
tolerance"), under the preconditions of the transforms: matching instants
for Stonyhurst/Carrington, a shared geometric observer and a nondegenerate
direction for Heliocentric/Helioprojective and Heliocentric/Stonyhurst, and
a nondegenerate rotation axis for inertial/Stonyhurst. -/
theorem claim3_round_trips :
    (∀ (L0 : ℤ → ℝ) (t : ℤ) (obs₁ obs₂ : Option Observer) (s : SphRep),
      (do
        let p ← hgs_to_hgc L0 ⟨some t, obs₁, s⟩ ⟨some t⟩
        hgc_to_hgs L0 p ⟨some t, obs₂⟩) = .ok ⟨some t, obs₂, s⟩) ∧
    (∀ x y z la lo D : ℝ, x ≠ 0 ∨ D - z ≠ 0 →
      (do
        let p ← hcc_to_hpc ⟨.frame la lo D, ⟨⟨x, .m⟩, ⟨y, .m⟩, ⟨z, .m⟩⟩⟩ ⟨.frame la lo D⟩
        hpc_to_hcc p ⟨.frame la lo D⟩) =
        .ok ⟨.frame la lo D, ⟨⟨x / 1000, .km⟩, ⟨y / 1000, .km⟩, ⟨z / 1000, .km⟩⟩⟩) ∧
    (∀ (x y z la lo D : ℝ) (ot : Option ℤ) (obs₂ : Option Observer),
      (x ≠ 0 ∨ z * Real.cos (deg2rad la) - y * Real.sin (deg2rad la) ≠ 0) →
      (do
        let p ← hcc_to_hgs ⟨.frame la lo D, ⟨⟨x, .m⟩, ⟨y, .m⟩, ⟨z, .m⟩⟩⟩ ⟨ot, obs₂⟩
        hgs_to_hcc p ⟨.frame la lo D⟩) =
        .ok ⟨.frame la lo D, ⟨⟨x / 1000, .km⟩, ⟨y / 1000, .km⟩, ⟨z / 1000, .km⟩⟩⟩) ∧
    (∀ (gb : Body → ℤ → Vec3) (t₀ t₁ : ℤ) (v : Vec3),
      cross3 (hgsXaxisDetilt gb t₁) (v3 1 0 0) ≠ 0 →
      (do
        let fwd ← hcrs_to_hgs gb (some t₀) (some t₁)
        let bwd ← hgs_to_hcrs gb (some t₁) (some t₀)
        Except.ok (applyAffine bwd (applyAffine fwd v))) = .ok v) :=
  ⟨fun L0 t o₁ o₂ s => rt_hgs_hgc L0 t o₁ o₂ s,
   fun x y z la lo D hw => rt_hcc_hpc x y z la lo D hw,
   fun x y z la lo D ot o₂ hw => rt_hcc_hgs x y z la lo D ot o₂ hw,
   fun gb t₀ t₁ v h => rt_hcrs_hgs gb t₀ t₁ v h⟩

/-- Witness for C3: each round trip at a concrete input with its
preconditions discharged. -/
theorem claim3_witness :
    (do
      let p ← hgs_to_hgc (fun _ => 5) ⟨some 0, none, ⟨1, 2, ⟨3, .km⟩⟩⟩ ⟨some 0⟩
      hgc_to_hgs (fun _ => 5) p ⟨some 0, none⟩) = .ok ⟨some 0, none, ⟨1, 2, ⟨3, .km⟩⟩⟩ ∧
    ((1000 : ℝ) ≠ 0 ∨ (2 : ℝ) - 0 ≠ 0) ∧
    (do
      let p ← hcc_to_hpc ⟨.frame 0 0 2, ⟨⟨1000, .m⟩, ⟨0, .m⟩, ⟨0, .m⟩⟩⟩ ⟨.frame 0 0 2⟩
      hpc_to_hcc p ⟨.frame 0 0 2⟩) =
      .ok ⟨.frame 0 0 2, ⟨⟨1000 / 1000, .km⟩, ⟨0 / 1000, .km⟩, ⟨0 / 1000, .km⟩⟩⟩ ∧
    (do
      let p ← hcc_to_hgs ⟨.frame 0 0 2, ⟨⟨1000, .m⟩, ⟨0, .m⟩, ⟨0, .m⟩⟩⟩ ⟨none, none⟩
      hgs_to_hcc p ⟨.frame 0 0 2⟩) =
      .ok ⟨.frame 0 0 2, ⟨⟨1000 / 1000, .km⟩, ⟨0 / 1000, .km⟩, ⟨0 / 1000, .km⟩⟩⟩ ∧
    (do
      let fwd ← hcrs_to_hgs gbW (some 0) (some 1)
      let bwd ← hgs_to_hcrs gbW (some 1) (some 0)
      Except.ok (applyAffine bwd (applyAffine fwd (v3 1 2 3)))) = .ok (v3 1 2 3) :=
  ⟨claim3_round_trips.1 (fun _ => 5) 0 none none ⟨1, 2, ⟨3, .km⟩⟩,
   Or.inl (by norm_num),
   claim3_round_trips.2.1 1000 0 0 0 0 2 (Or.inl (by norm_num)),
   claim3_round_trips.2.2.1 1000 0 0 0 0 2 none none (Or.inl (by norm_num)),
   claim3_round_trips.2.2.2 gbW 0 1 (v3 1 2 3) (gbW_axis_ne 1)⟩
